import Mathlib

/-!
Verification of the np_queuey job-queue core.

The queue engine lives in `src/np_queuey/jobs/pipeline_sorting.py` as the
`PeeweeJobQueue` model: a SQLite table with columns `folder` (primary key),
`priority`, `added`, `hostname`, `finished`, a selection query
`select_unprocessed` (filter `finished == False AND hostname == ''`, order by
`priority` descending then `added` ascending), `next` (first row of that
query, `DoesNotExist` when empty, modelled as `Option`), and the transition
methods `set_started`, `set_finished`, `set_queued` which assign fields of a
row and save it.  The table is embedded as a `List Job` in insertion order;
each transition method becomes an update of every row whose `folder` matches
the job's primary key (there is at most one such row in a real table).

The mtrain-upload façade lives in
`src/np_queuey/jobs/dynamicrouting_behavior_session_mtrain_upload.py`: a
SQLite table with columns `behavior_session_id` (integer primary key),
`added`, and nullable marker columns `processing` and `uploaded`;
`add_behavior_session_to_mtrain_upload_queue` is an `INSERT OR IGNORE`, and
`get_outstanding_behavior_session_ids_for_processing` selects ids whose
markers are each `0 OR IS NULL`.
-/

/-- A row of the `PeeweeJobQueue` table (`pipeline_sorting.py`, lines 121-158):
`folder` is the primary key; `priority` defaults to 0, `added` to the insertion
time, `hostname` to the empty string, `finished` to false. -/
structure Job where
  folder : String
  priority : Int
  added : Nat
  hostname : String
  finished : Bool
deriving DecidableEq

/-- The job table: rows in insertion order. -/
abbrev JobTable := List Job

/-- The filter of `select_unprocessed` (line 190):
`(cls.finished == False) & (cls.hostname == '')`. -/
def eligible (j : Job) : Bool :=
  !j.finished && j.hostname == ""

/-- The sort order of `select_unprocessed` (line 191):
`ORDER BY priority DESC, added ASC`, as a relation saying row `a` sorts no
later than row `b`. -/
def jobBefore (a b : Job) : Prop :=
  b.priority < a.priority ∨ (a.priority = b.priority ∧ a.added ≤ b.added)

instance : DecidableRel jobBefore := fun a b =>
  inferInstanceAs (Decidable (b.priority < a.priority ∨ (a.priority = b.priority ∧ a.added ≤ b.added)))

instance : IsTotal Job jobBefore :=
  ⟨fun a b => by unfold jobBefore; omega⟩

instance : IsTrans Job jobBefore :=
  ⟨fun a b c hab hbc => by unfold jobBefore at hab hbc ⊢; omega⟩

/-- `PeeweeJobQueue.select_unprocessed` (lines 182-192): the eligible rows,
sorted by priority descending then added ascending. -/
def select_unprocessed (db : JobTable) : List Job :=
  List.insertionSort jobBefore (db.filter eligible)

/-- `PeeweeJobQueue.next` (lines 176-179): first row of `select_unprocessed`;
`.get()` raises `DoesNotExist` on an empty result, modelled as `none`. -/
def next (db : JobTable) : Option Job :=
  (select_unprocessed db).head?

/-- `PeeweeJobQueue.set_started` (lines 200-204): `self.hostname = hostname;
self.finished = False; self.save()` — an unconditional write of the row whose
primary key is `folder`.  There is no `WHERE hostname = ''` guard and no
zero-rows-affected signal in the source. -/
def set_started (db : JobTable) (folder hostname : String) : JobTable :=
  db.map fun j =>
    if j.folder == folder then { j with hostname := hostname, finished := false } else j

/-- `PeeweeJobQueue.set_finished` (lines 195-198): `self.finished = True;
self.save()`. -/
def set_finished (db : JobTable) (folder : String) : JobTable :=
  db.map fun j =>
    if j.folder == folder then { j with finished := true } else j

/-- `PeeweeJobQueue.set_queued` (lines 206-210): `self.hostname = '';
self.finished = False; self.save()`. -/
def set_queued (db : JobTable) (folder : String) : JobTable :=
  db.map fun j =>
    if j.folder == folder then { j with hostname := "", finished := false } else j

/-- `PeeweeJobQueue.is_started` (lines 212-215):
`bool(self.hostname) and not bool(self.finished)`. -/
def is_started (j : Job) : Bool :=
  j.hostname != "" && !j.finished

/-- Derived predicate of the spec's data model ("a job is finished iff
`finished = true`"); the source stores it as the `finished` column. -/
def is_finished (j : Job) : Bool :=
  j.finished

/-- `PeeweeJobQueue.add` (lines 160-173): `cls.create(folder=folder, **kwargs)`
— an INSERT of a fresh row with the remaining columns at their declared
defaults (`hostname=''`, `finished=False`, `added=now`).  Inserting a
duplicate primary key makes SQLite reject the row and peewee raise
`IntegrityError`, modelled as the `Except.error` branch. -/
def PeeweeJobQueue.add (db : JobTable) (folder : String) (priority : Int) (now : Nat) :
    Except String JobTable :=
  if db.any fun j => j.folder == folder then Except.error "IntegrityError"
  else Except.ok (db ++ [⟨folder, priority, now, "", false⟩])

/-- One engine call against the shared table, for reasoning about what a
sequence of operations can do to a row. -/
inductive Op where
  | setStarted (folder hostname : String)
  | setFinished (folder : String)
  | setQueued (folder : String)
  | addJob (folder : String) (priority : Int) (now : Nat)

/-- Effect of one engine call on the table; a rejected `add` (duplicate key)
leaves the table unchanged. -/
def applyOp (db : JobTable) : Op → JobTable
  | Op.setStarted k h => set_started db k h
  | Op.setFinished k => set_finished db k
  | Op.setQueued k => set_queued db k
  | Op.addJob k p t =>
    match PeeweeJobQueue.add db k p t with
    | Except.ok db2 => db2
    | Except.error _ => db

/-- Effect of a sequence of engine calls. -/
def applyOps (db : JobTable) (ops : List Op) : JobTable :=
  ops.foldl applyOp db

/-- Calls that do not re-queue job `k`: no `set_queued` on `k`, and
`set_started` on `k` only with a worker hostname (non-empty, as workers pass
their machine hostname). -/
def avoidsRequeue (k : String) : Op → Bool
  | Op.setStarted k2 h => k2 != k || h != ""
  | Op.setQueued k2 => k2 != k
  | _ => true

/-- Invariant for a job `k` that has left the queue: a row with key `k`
exists, and every row with key `k` is ineligible. -/
def keyDone (k : String) (db : JobTable) : Prop :=
  (∃ j ∈ db, j.folder = k) ∧ ∀ j ∈ db, j.folder = k → eligible j = false

/-- A row of the `behavior_session_mtrain_upload_queue` table
(`dynamicrouting_behavior_session_mtrain_upload.py`, lines 80-87):
`behavior_session_id INTEGER PRIMARY KEY NOT NULL`, `added TIMESTAMP NOT
NULL`, `processing INTEGER` and `uploaded INTEGER` both nullable (`none`
models SQL NULL). -/
structure UploadRow where
  behavior_session_id : Int
  added : String
  processing : Option Int
  uploaded : Option Int
deriving DecidableEq

/-- The SQL predicate `x = 0 OR x IS NULL` used for both marker columns in
`get_outstanding_behavior_session_ids_for_processing` (line 118). -/
def markerUnset (v : Option Int) : Bool :=
  match v with
  | none => true
  | some n => n == 0

/-- `add_behavior_session_to_mtrain_upload_queue` (lines 30-43):
`INSERT OR IGNORE INTO behavior_session_mtrain_upload_queue
(behavior_session_id) VALUES (?)` — a no-op when a row with that primary key
exists, otherwise an insert with `added = CURRENT_TIMESTAMP` and the nullable
marker columns left NULL. -/
def add_behavior_session_to_mtrain_upload_queue
    (db : List UploadRow) (sid : Int) (now : String) : List UploadRow :=
  if db.any fun r => r.behavior_session_id == sid then db
  else db ++ [⟨sid, now, none, none⟩]

/-- `get_outstanding_behavior_session_ids_for_processing` (lines 106-120):
`SELECT behavior_session_id ... WHERE (processing = 0 OR processing IS NULL)
AND (uploaded = 0 OR uploaded IS NULL)`. -/
def get_outstanding_behavior_session_ids_for_processing
    (db : List UploadRow) : List Int :=
  (db.filter fun r => markerUnset r.processing && markerUnset r.uploaded).map
    fun r => r.behavior_session_id

/-- Concrete low-priority job, queued at time 0. -/
def jobW1 : Job := ⟨"s1", 0, 0, "", false⟩

/-- Concrete high-priority job, queued at time 1. -/
def jobW2 : Job := ⟨"s2", 5, 1, "", false⟩

/-- Concrete job already claimed by worker `workerA`. -/
def raceJob : Job := ⟨"s1", 0, 0, "workerA", false⟩

/-- Concrete job in the finished state. -/
def doneJob : Job := ⟨"t1", 0, 0, "", true⟩

/-! ## Basic facts about the selection query -/

theorem mem_select_unprocessed {db : JobTable} {a : Job} :
    a ∈ select_unprocessed db ↔ a ∈ db ∧ eligible a = true := by
  unfold select_unprocessed
  rw [(List.perm_insertionSort jobBefore (db.filter eligible)).mem_iff]
  exact List.mem_filter

theorem sorted_select_unprocessed (db : JobTable) :
    (select_unprocessed db).Sorted jobBefore :=
  List.sorted_insertionSort jobBefore (db.filter eligible)

theorem next_mem_eligible {db : JobTable} {j : Job} (h : next db = some j) :
    j ∈ db ∧ eligible j = true := by
  refine mem_select_unprocessed.mp ?_
  unfold next at h
  cases hsel : select_unprocessed db with
  | nil => rw [hsel] at h; simp at h
  | cons x xs =>
    rw [hsel] at h
    simp only [List.head?_cons, Option.some.injEq] at h
    rw [← h]
    exact List.mem_cons_self x xs

theorem next_folder_ne {k : String} {db : JobTable}
    (hinel : ∀ j ∈ db, j.folder = k → eligible j = false) :
    ((next db).all fun j => j.folder != k) = true := by
  cases hnext : next db with
  | none => rfl
  | some j =>
    obtain ⟨hmem, helig⟩ := next_mem_eligible hnext
    simp only [Option.all_some, bne_iff_ne, ne_eq, decide_eq_true_eq]
    intro hk
    rw [hinel j hmem hk] at helig
    exact Bool.false_ne_true helig

/-- C8: `next()` signals an empty result (peewee `DoesNotExist`, modelled as
`none`) exactly when no eligible job (`finished = false` and `hostname = ''`)
exists in the table; whenever some eligible job exists it returns a job.  The
operation is a pure read of the table and mutates nothing. -/
theorem C8_next_none_iff_queue_empty (db : JobTable) :
    next db = none ↔ db.any eligible = false := by
  unfold next select_unprocessed
  rw [List.head?_eq_none_iff, ← List.length_eq_zero,
    (List.perm_insertionSort jobBefore (db.filter eligible)).length_eq,
    List.length_eq_zero, List.filter_eq_nil_iff, List.any_eq_false]

/-- C1: among eligible jobs, the selection query orders a job with strictly
higher priority before any lower-priority job, and orders jobs of equal
priority by ascending `added` timestamp; since `next()` repeatedly takes the
head of this query, the job `a` is returned before `b` whenever `a` has
higher priority, or equal priority and an earlier `added` time, regardless of
insertion order of the rows. -/
theorem C1_priority_then_fifo (db : JobTable) (a b : Job)
    (ha : a ∈ db) (hb : b ∈ db) (hea : eligible a = true) (heb : eligible b = true)
    (hord : a.priority > b.priority ∨ (a.priority = b.priority ∧ a.added < b.added)) :
    (select_unprocessed db).indexOf a < (select_unprocessed db).indexOf b := by
  have hal : a ∈ select_unprocessed db := mem_select_unprocessed.mpr ⟨ha, hea⟩
  have hbl : b ∈ select_unprocessed db := mem_select_unprocessed.mpr ⟨hb, heb⟩
  have hsorted := sorted_select_unprocessed db
  set l := select_unprocessed db with hldef
  have hia : l.indexOf a < l.length := List.indexOf_lt_length.mpr hal
  have hib : l.indexOf b < l.length := List.indexOf_lt_length.mpr hbl
  have hnot : ¬ jobBefore b a := by unfold jobBefore; omega
  by_contra hcon
  push_neg at hcon
  rcases Nat.lt_or_ge (l.indexOf b) (l.indexOf a) with hlt | hge
  · have hrel := hsorted.rel_get_of_lt
      (a := ⟨l.indexOf b, hib⟩) (b := ⟨l.indexOf a, hia⟩) hlt
    rw [List.get_eq_getElem, List.get_eq_getElem,
      List.getElem_indexOf hib, List.getElem_indexOf hia] at hrel
    exact hnot hrel
  · have heq : l.indexOf b = l.indexOf a := Nat.le_antisymm hcon hge
    have h1 : l[l.indexOf a]? = some a := by
      rw [List.getElem?_eq_getElem hia, List.getElem_indexOf hia]
    have h2 : l[l.indexOf b]? = some b := by
      rw [List.getElem?_eq_getElem hib, List.getElem_indexOf hib]
    rw [heq, h1] at h2
    simp only [Option.some.injEq] at h2
    rw [h2] at hord
    omega

/-- Witness for C1: with the low-priority job inserted first, the selection
query still places the high-priority job ahead of it. -/
theorem C1_priority_then_fifo_witness :
    (select_unprocessed [jobW1, jobW2]).indexOf jobW2
      < (select_unprocessed [jobW1, jobW2]).indexOf jobW1 :=
  C1_priority_then_fifo [jobW1, jobW2] jobW2 jobW1 (by decide) (by decide)
    (by decide) (by decide) (Or.inl (by decide))

/-- C2: the source's `set_started` is an unconditional write, not a
compare-and-swap on `hostname = ''`.  Evaluated at the failing input — a row
already claimed by `workerA` — a `set_started` call by `workerB` updates the
row and overwrites the stored hostname with `workerB`; no zero-rows-affected
condition or `LostClaimRace` signal exists anywhere in the code (the method's
return type carries no failure case at all). -/
theorem C2_set_started_unconditional_overwrite :
    (set_started [raceJob] "s1" "workerB").map Job.hostname = ["workerB"] ∧
    raceJob.hostname = "workerA" := by
  constructor <;> rfl

/-- Counterexample to C4 as stated: `set_started` on a finished job does
produce a job with `hostname ≠ ''` and `finished = false` — the engine's
`set_started` writes `finished = False` unconditionally (line 203), so it
moves a finished job directly to the started state. -/
theorem C4_counterexample :
    is_finished doneJob = true ∧
    ((set_started [doneJob] "t1" "host").all fun j => is_started j) = true := by
  constructor <;> rfl

/-- C4 as amended: `set_started` on a finished job sets `hostname` to the
given worker name and resets `finished` to `false`; with a non-empty hostname
the job becomes started, so the engine exposes a direct finished → started
transition via `set_started` — `set_queued` is not the only operation that
takes a job out of the finished state. -/
theorem C4_set_started_on_finished (db : JobTable) (k h : String)
    (hh : h ≠ "")
    (_hfin : (db.all fun j => j.folder != k || is_finished j) = true) :
    ((set_started db k h).all fun j => j.folder != k || is_started j) = true := by
  rw [List.all_eq_true]
  intro x hx
  obtain ⟨j, hj, rfl⟩ := List.mem_map.mp hx
  cases hc : j.folder == k with
  | false =>
    have hne : ¬ j.folder = k := by simpa using hc
    simp [hc, hne]
  | true => simp [hc, is_started, hh]

/-- Witness for C4's amended theorem at the concrete finished job. -/
theorem C4_set_started_on_finished_witness :
    ((set_started [doneJob] "t1" "hostX").all fun j => j.folder != "t1" || is_started j) = true :=
  C4_set_started_on_finished [doneJob] "t1" "hostX" (by decide) (by decide)

/-! ## Row-update helper lemmas -/

theorem keyDone_map_update {k k2 : String} {db : JobTable} {f : Job → Job}
    (hfolder : ∀ j, (f j).folder = j.folder)
    (hinelig : ∀ j, j.folder = k → j.folder = k2 → eligible (f j) = false)
    (hd : keyDone k db) :
    keyDone k (db.map fun j => if j.folder == k2 then f j else j) := by
  obtain ⟨⟨j0, hj0, hj0k⟩, hinel⟩ := hd
  constructor
  · refine ⟨_, List.mem_map_of_mem _ hj0, ?_⟩
    cases hc : j0.folder == k2 <;> simp [hc, hfolder, hj0k]
  · intro x hx hxk
    obtain ⟨j, hj, rfl⟩ := List.mem_map.mp hx
    cases hc : j.folder == k2 with
    | false => exact hinel j hj (by simpa [hc] using hxk)
    | true =>
      have hfk2 : j.folder = k2 := by simpa using hc
      have hjk : j.folder = k := by simpa [hc, hfolder] using hxk
      simp [hc, hinelig j hjk hfk2]

theorem applyOp_addJob (db : JobTable) (k2 : String) (p : Int) (t : Nat) :
    applyOp db (Op.addJob k2 p t) =
      if db.any fun j => j.folder == k2 then db else db ++ [⟨k2, p, t, "", false⟩] := by
  simp only [applyOp, PeeweeJobQueue.add]
  cases hany : db.any fun j => j.folder == k2 with
  | true => simp [hany]
  | false => simp [hany]

theorem keyDone_applyOp {k : String} {db : JobTable} {op : Op}
    (hd : keyDone k db) (hop : avoidsRequeue k op = true) :
    keyDone k (applyOp db op) := by
  cases op with
  | setStarted k2 h2 =>
    refine keyDone_map_update (fun j => rfl) ?_ hd
    intro j hjk hjk2
    have hk2 : k2 = k := by rw [← hjk2]; exact hjk
    have hh2 : h2 ≠ "" := by
      simp only [avoidsRequeue, hk2, bne_self_eq_false, Bool.false_or] at hop
      simpa using hop
    simp [eligible, hh2]
  | setFinished k2 =>
    exact keyDone_map_update (fun j => rfl) (fun j _ _ => by simp [eligible]) hd
  | setQueued k2 =>
    refine keyDone_map_update (fun j => rfl) ?_ hd
    intro j hjk hjk2
    have hne : k2 ≠ k := by simpa [avoidsRequeue] using hop
    exact absurd (by rw [← hjk2]; exact hjk) hne
  | addJob k2 p t =>
    obtain ⟨⟨j0, hj0, hj0k⟩, hinel⟩ := hd
    rw [applyOp_addJob]
    cases hany : db.any fun j => j.folder == k2 with
    | true =>
      simp only [if_true]
      exact ⟨⟨j0, hj0, hj0k⟩, hinel⟩
    | false =>
      simp only [Bool.false_eq_true, if_false]
      have hkne : k ≠ k2 := by
        intro hkk
        have := List.any_eq_false.mp hany j0 hj0
        exact this (by rw [hj0k, hkk] at *; exact beq_self_eq_true k2)
      constructor
      · exact ⟨j0, List.mem_append_left _ hj0, hj0k⟩
      · intro x hx hxk
        rcases List.mem_append.mp hx with hxl | hxr
        · exact hinel x hxl hxk
        · have hxeq : x = ⟨k2, p, t, "", false⟩ := by simpa using hxr
          rw [hxeq] at hxk
          exact absurd hxk.symm hkne

theorem keyDone_applyOps {k : String} {ops : List Op} (db : JobTable)
    (hd : keyDone k db) (hops : ops.all (avoidsRequeue k) = true) :
    keyDone k (applyOps db ops) := by
  induction ops generalizing db with
  | nil => exact hd
  | cons op ops ih =>
    rw [List.all_cons, Bool.and_eq_true] at hops
    exact ih (applyOp db op) (keyDone_applyOp hd hops.1) hops.2

theorem keyDone_set_finished {k : String} {db : JobTable}
    (hk : (db.any fun j => j.folder == k) = true) :
    keyDone k (set_finished db k) := by
  obtain ⟨j0, hj0, hj0k⟩ := List.any_eq_true.mp hk
  have hj0k2 : j0.folder = k := by simpa using hj0k
  constructor
  · refine ⟨_, List.mem_map_of_mem _ hj0, ?_⟩
    cases hc : j0.folder == k <;> simp [hc, hj0k2]
  · intro x hx hxk
    obtain ⟨j, hj, rfl⟩ := List.mem_map.mp hx
    cases hc : j.folder == k with
    | false => exact absurd (by simpa [hc] using hxk) (by simpa using hc)
    | true => simp [hc, eligible]

theorem all_rows_update_sat {k : String} (db : JobTable) {f : Job → Job} {p : Job → Bool}
    (hpf : ∀ j, p (f j) = true) :
    ((db.map fun j => if j.folder == k then f j else j).all
      fun j => j.folder != k || p j) = true := by
  rw [List.all_eq_true]
  intro x hx
  obtain ⟨j, hj, rfl⟩ := List.mem_map.mp hx
  cases hc : j.folder == k with
  | false =>
    have hne : ¬ j.folder = k := by simpa using hc
    simp [hc, hne]
  | true => simp [hc, hpf]

theorem inel_rows_update {k : String} (db : JobTable) {f : Job → Job}
    (hf : ∀ j, eligible (f j) = false) :
    ∀ x ∈ (db.map fun j => if j.folder == k then f j else j),
      x.folder = k → eligible x = false := by
  intro x hx hxk
  obtain ⟨j, hj, rfl⟩ := List.mem_map.mp hx
  cases hc : j.folder == k with
  | false => exact absurd (by simpa [hc] using hxk) (by simpa using hc)
  | true => simp [hc, hf]

/-- C3: after `set_started(job, h)` with a non-empty hostname `h`, the job's
row satisfies `is_started` and `next()` no longer returns it; after
`set_finished(job)` the row satisfies `is_finished`, and along any further
sequence of engine calls that never calls `set_queued` on the job (and claims
jobs only with non-empty worker hostnames, which is how workers call
`set_started`), `next()` never returns the job again. -/
theorem C3_started_finished_not_returned (db : JobTable) (k h : String) (ops : List Op)
    (hk : (db.any fun j => j.folder == k) = true)
    (hh : h ≠ "")
    (hops : ops.all (avoidsRequeue k) = true) :
    ((set_started db k h).all fun j => j.folder != k || is_started j) = true ∧
    ((next (set_started db k h)).all fun j => j.folder != k) = true ∧
    ((set_finished db k).all fun j => j.folder != k || is_finished j) = true ∧
    ((next (applyOps (set_finished db k) ops)).all fun j => j.folder != k) = true := by
  refine ⟨?_, ?_, ?_, ?_⟩
  · exact all_rows_update_sat db (fun j => by simp [is_started, hh])
  · exact next_folder_ne (inel_rows_update db (fun j => by simp [eligible, hh]))
  · exact all_rows_update_sat db (fun j => by simp [is_finished])
  · exact next_folder_ne
      (keyDone_applyOps (set_finished db k) (keyDone_set_finished hk) hops).2

/-- Witness for C3 at a one-job table, with a subsequent re-claim and a fresh
insertion after the job was finished. -/
theorem C3_started_finished_not_returned_witness :
    ((set_started [jobW1] "s1" "hostW").all fun j => j.folder != "s1" || is_started j) = true ∧
    ((next (set_started [jobW1] "s1" "hostW")).all fun j => j.folder != "s1") = true ∧
    ((set_finished [jobW1] "s1").all fun j => j.folder != "s1" || is_finished j) = true ∧
    ((next (applyOps (set_finished [jobW1] "s1")
        [Op.setStarted "s1" "hostW", Op.addJob "s2" 1 7])).all
      fun j => j.folder != "s1") = true :=
  C3_started_finished_not_returned [jobW1] "s1" "hostW"
    [Op.setStarted "s1" "hostW", Op.addJob "s2" 1 7] (by decide) (by decide) (by decide)

/-- C5: `set_queued` resets `hostname = ''` and `finished = false` on the
job's row; applied after `set_started` it restores the queued state: the row
is eligible again and appears in the selection query, so `next()` can return
the job again. -/
theorem C5_set_queued_restores (db : JobTable) (k h : String)
    (hk : (db.any fun j => j.folder == k) = true) :
    ((set_queued db k).all fun j => j.folder != k || (j.hostname == "" && !j.finished)) = true ∧
    ((set_queued (set_started db k h) k).all fun j => j.folder != k || eligible j) = true ∧
    ((select_unprocessed (set_queued (set_started db k h) k)).any
      fun j => j.folder == k) = true := by
  refine ⟨?_, ?_, ?_⟩
  · exact all_rows_update_sat db (fun j => by simp)
  · exact all_rows_update_sat (set_started db k h) (fun j => by simp [eligible])
  · obtain ⟨j0, hj0, hj0k⟩ := List.any_eq_true.mp hk
    have hj0p : j0.folder = k := by simpa using hj0k
    refine List.any_eq_true.mpr ?_
    refine ⟨{ j0 with hostname := "", finished := false }, ?_, by simpa using hj0p⟩
    refine mem_select_unprocessed.mpr ⟨?_, by simp [eligible]⟩
    refine List.mem_map.mpr ⟨{ j0 with hostname := h, finished := false }, ?_, ?_⟩
    · exact List.mem_map.mpr ⟨j0, hj0, by rw [if_pos hj0k]⟩
    · rw [if_pos (show ((( { j0 with hostname := h, finished := false } : Job).folder == k) = true) from by simpa using hj0p)]

/-- Witness for C5 at a one-job table whose job is claimed and then released. -/
theorem C5_set_queued_restores_witness :
    ((set_queued [jobW1] "s1").all
      fun j => j.folder != "s1" || (j.hostname == "" && !j.finished)) = true ∧
    ((set_queued (set_started [jobW1] "s1" "hostQ") "s1").all
      fun j => j.folder != "s1" || eligible j) = true ∧
    ((select_unprocessed (set_queued (set_started [jobW1] "s1" "hostQ") "s1")).any
      fun j => j.folder == "s1") = true :=
  C5_set_queued_restores [jobW1] "s1" "hostQ" (by decide)

/-- C6: `set_finished` sets `finished = true` on the job's row and leaves
every other field — `folder`, `priority`, `added`, and in particular
`hostname`, which remains as a record of the worker that finished the job —
unchanged, and leaves all other rows untouched. -/
theorem C6_set_finished_frame (db : JobTable) (k : String) :
    (set_finished db k).length = db.length ∧
    ((db.zip (set_finished db k)).all fun p =>
      p.2.folder == p.1.folder && p.2.priority == p.1.priority &&
      p.2.added == p.1.added && p.2.hostname == p.1.hostname &&
      p.2.finished == (p.1.folder == k || p.1.finished)) = true := by
  constructor
  · simp [set_finished]
  · induction db with
    | nil => rfl
    | cons a l ih =>
      rw [show set_finished (a :: l) k =
        (if a.folder == k then { a with finished := true } else a) :: set_finished l k
        from rfl]
      rw [List.zip_cons_cons, List.all_cons, Bool.and_eq_true]
      refine ⟨?_, ih⟩
      cases hc : a.folder == k <;> simp [hc]

/-- C7: on a job already started with hostname `h` (stored `hostname = h`,
`finished = false`), calling `set_started` again with the same `h` leaves the
whole table — hence every field of the job — unchanged; and as a table
operation `set_started` is idempotent. -/
theorem C7_set_started_idempotent (db : JobTable) (k h : String)
    (hstate : (db.all fun j => j.folder != k || (j.hostname == h && !j.finished)) = true) :
    set_started db k h = db ∧
    set_started (set_started db k h) k h = set_started db k h := by
  constructor
  · rw [List.all_eq_true] at hstate
    have hself : ∀ j ∈ db,
        (if j.folder == k then { j with hostname := h, finished := false } else j) = j := by
      intro j hj
      cases hc : j.folder == k with
      | false => simp
      | true =>
        have hp := hstate j hj
        simp only [bne, hc, Bool.not_true, Bool.false_or, Bool.and_eq_true] at hp
        have hh2 : j.hostname = h := by simpa using hp.1
        have hf2 : j.finished = false := by simpa using hp.2
        obtain ⟨fo, pr, ad, ho, fi⟩ := j
        simp only at hh2 hf2
        simp [hh2, hf2]
    exact (List.map_congr_left hself).trans (List.map_id' db)
  · show (set_started db k h).map _ = _
    rw [show set_started db k h = db.map
      (fun j => if j.folder == k then { j with hostname := h, finished := false } else j)
      from rfl, List.map_map]
    apply List.map_congr_left
    intro j _
    show (if ((if j.folder == k then { j with hostname := h, finished := false } else j).folder == k) = true
        then _ else _) = _
    cases hc : j.folder == k with
    | false => simp [hc]
    | true => simp [hc]

/-- Witness for C7 at a one-job table already claimed by `h1`. -/
theorem C7_set_started_idempotent_witness :
    set_started [raceJob] "s1" "workerA" = [raceJob] ∧
    set_started (set_started [raceJob] "s1" "workerA") "s1" "workerA"
      = set_started [raceJob] "s1" "workerA" :=
  C7_set_started_idempotent [raceJob] "s1" "workerA" (by decide)

/-- C9: re-adding an existing key never produces a second row with that key.
The engine's `add` (peewee `create` on the `folder` primary key) rejects the
duplicate with an `IntegrityError` and inserts nothing; the mtrain-upload
façade's `INSERT OR IGNORE` on an existing `behavior_session_id` silently
leaves the table unchanged and does not raise. -/
theorem C9_duplicate_key_no_second_row (db : JobTable) (k : String) (p : Int) (t : Nat)
    (udb : List UploadRow) (sid : Int) (s : String)
    (hk : (db.any fun j => j.folder == k) = true)
    (hs : (udb.any fun r => r.behavior_session_id == sid) = true) :
    PeeweeJobQueue.add db k p t = Except.error "IntegrityError" ∧
    add_behavior_session_to_mtrain_upload_queue udb sid s = udb := by
  constructor
  · unfold PeeweeJobQueue.add
    rw [if_pos hk]
  · unfold add_behavior_session_to_mtrain_upload_queue
    rw [if_pos hs]

/-- Row already present in the mtrain-upload queue, mirroring the doctests'
test session id `-1`. -/
def uploadRowW : UploadRow := ⟨-1, "2023-01-01 00:00:00", none, none⟩

/-- Witness for C9: re-adding key `s1` and session `-1`. -/
theorem C9_duplicate_key_no_second_row_witness :
    PeeweeJobQueue.add [jobW1] "s1" 3 9 = Except.error "IntegrityError" ∧
    add_behavior_session_to_mtrain_upload_queue [uploadRowW] (-1) "2023-01-02 00:00:00"
      = [uploadRowW] :=
  C9_duplicate_key_no_second_row [jobW1] "s1" 3 9 [uploadRowW] (-1) "2023-01-02 00:00:00"
    (by decide) (by decide)

/-- C10: a freshly inserted behavior session, whose `processing` and
`uploaded` columns are NULL (the insert leaves them at their NULL default),
is reported as outstanding: the selection treats a NULL marker column the
same as `0`, so the result contains the new session id. -/
theorem C10_fresh_session_is_outstanding (udb : List UploadRow) (sid : Int) (s : String)
    (hnew : (udb.any fun r => r.behavior_session_id == sid) = false) :
    sid ∈ get_outstanding_behavior_session_ids_for_processing
      (add_behavior_session_to_mtrain_upload_queue udb sid s) := by
  unfold add_behavior_session_to_mtrain_upload_queue
  rw [if_neg (by simp [hnew])]
  unfold get_outstanding_behavior_session_ids_for_processing
  refine List.mem_map.mpr ⟨⟨sid, s, none, none⟩, ?_, rfl⟩
  exact List.mem_filter.mpr ⟨List.mem_append_right _ (List.mem_singleton_self _), rfl⟩

/-- Witness for C10: inserting session `-1` into an empty queue. -/
theorem C10_fresh_session_is_outstanding_witness :
    (-1 : Int) ∈ get_outstanding_behavior_session_ids_for_processing
      (add_behavior_session_to_mtrain_upload_queue [] (-1) "2023-01-01 00:00:00") :=
  C10_fresh_session_is_outstanding [] (-1) "2023-01-01 00:00:00" (by decide)
